import Mathlib

/-!
Verification of the track-resolution-and-conversion pipeline of the
spotify-playlist-downloader repository (`scripts/spotify_youtube_converter.py`),
as a shallow embedding in Lean 4.

External capabilities (the Spotify playlist provider, the YouTube search API,
the yt-dlp/ffmpeg media fetcher, the clock producing the archive timestamp and
the thread scheduler choosing the completion order of pool tasks) are modelled
as explicit oracle parameters.  The filesystem (the `downloads/temp` directory
and the set of produced archives) is modelled as explicit state threaded
through the functions that touch it.
-/

namespace SpotifyConverter

/-- A track as produced by `get_spotify_playlist_tracks`: the dict
`{"title": ..., "artist": ..., "duration": ...}`.  The duration is an opaque
payload carried through the pipeline unchanged (the code never branches on it),
represented here as a `Nat` of hundredths of minutes. -/
structure Song where
  title : String
  artist : String
  duration : Nat
  deriving DecidableEq, Repr

/-- Outcome of one query to the external YouTube search capability, as observed
by the loop body of `get_youtube_links`: the provider call raises, or returns a
response with an empty `items` list, or returns a first item carrying a
`videoId`. -/
inductive SearchResult where
  | error (msg : String)
  | noItems
  | video (videoId : String)
  deriving DecidableEq, Repr

/-- Outcome of one yt-dlp invocation inside `download_song`, as observed by the
code around it: the invocation raises an exception, or completes without having
produced the expected `.mp3` file, or completes having written it. -/
inductive FetchOutcome where
  | raised
  | noFile
  | wrote
  deriving DecidableEq, Repr

/-- The filesystem state the pipeline reads and writes: the set of file names
in `downloads/temp` (duplicate-free list) and the archives in `downloads`,
each recorded with its entry names. -/
structure Storage where
  temp : List String
  archives : List (String × List String)
  deriving DecidableEq, Repr

/-- Python's `str.isalnum` on a single character, modelled on the code points
that matter to this development: it holds for the ASCII letters and digits
and, beyond ASCII, for the Latin-1 letters (U+00C0..U+00FF minus the
multiplication and division signs U+00D7 and U+00F7) and the Latin-1
characters U+00AA, U+00B2, U+00B3, U+00B5, U+00B9, U+00BA, all of which
Unicode classifies as letters or numeric and Python therefore accepts.
Code points above U+00FF are not modelled and map to `false`. -/
def pyIsAlnum (c : Char) : Bool :=
  c.isAlphanum
  || (decide (0xC0 ≤ c.toNat) && decide (c.toNat ≤ 0xFF)
      && c.toNat != 0xD7 && c.toNat != 0xF7)
  || (c.toNat == 0xAA || c.toNat == 0xB2 || c.toNat == 0xB3
      || c.toNat == 0xB5 || c.toNat == 0xB9 || c.toNat == 0xBA)

/-- The filename sanitizer of `download_song`:
`"".join(x for x in f"{song['artist']} - {song['title']}" if x.isalnum() or x in "- ")`. -/
def sanitize (artist title : String) : String :=
  ⟨(artist ++ " - " ++ title).data.filter fun c => pyIsAlnum c || c == '-' || c == ' '⟩

/-- The final artifact name `f"{safe_title}.mp3"` a download of `s` is checked
against and registered under. -/
def downloadedFileName (s : Song) : String :=
  sanitize s.artist s.title ++ ".mp3"

/-- The string appended to `youtube_links` for one search outcome, following
the three branches of the loop body of `get_youtube_links`. -/
def searchLink (r : SearchResult) : String :=
  match r with
  | .error _ => "Error: Could not search"
  | .noItems => "No result found"
  | .video vid => "https://www.youtube.com/watch?v=" ++ vid

/-- Embedding of `get_youtube_links`: one sequential query per song, appending one link
string per song in input order.  `search` is the external YouTube search
capability. -/
def get_youtube_links (search : Song → SearchResult) (songs : List Song) :
    List String :=
  songs.map fun s => searchLink (search s)

/-- Python's `str.startswith`, over the character lists of the strings. -/
def pyStartsWith (s pre : String) : Bool :=
  pre.data.isPrefixOf s.data

/-- The submission guard of `download_playlist`:
`if link != "No result found" and not link.startswith("Error:")`. -/
def isSubmittable (link : String) : Bool :=
  !(link == "No result found") && !(pyStartsWith link "Error:")

/-- The `(song, link)` pairs submitted to the thread pool by
`download_playlist`: `zip(songs, links)` filtered by the submission guard. -/
def submitted (songs : List Song) (links : List String) :
    List (Song × String) :=
  (songs.zip links).filter fun p => isSubmittable p.2

/-- The `(song, link)` pairs that are never submitted because their link did
not resolve (the complement of `submitted` inside `zip(songs, links)`). -/
def unresolvedPairs (songs : List Song) (links : List String) :
    List (Song × String) :=
  (songs.zip links).filter fun p => !(isSubmittable p.2)

/-- Insertion of a file name into the temp directory: writing a file whose
name already exists overwrites it, so the name set gains at most one
element. -/
def insertFile (f : String) (temp : List String) : List String :=
  if f ∈ temp then temp else f :: temp

/-- Embedding of `download_song song url` as observed through its effect on the temp
directory and its return value.  `out` is the outcome of the external yt-dlp
invocation for this task.  On `wrote` the task writes `downloadedFileName song`
and the subsequent `os.path.exists(final_path)` check succeeds; on `noFile`
the invocation completed without writing, and the existence check consults the
current temp state (it can still succeed if a colliding task wrote the same
name); on `raised` the exception is caught and `None` is returned. -/
def download_song (song : Song) (out : FetchOutcome) (temp : List String) :
    List String × Option String :=
  let fname := downloadedFileName song
  match out with
  | .raised => (temp, none)
  | .wrote => (insertFile fname temp, some fname)
  | .noFile => (temp, if fname ∈ temp then some fname else none)

/-- The accumulated observable result of the `as_completed` loop of
`download_playlist`: the final temp state, the `downloaded_files` and
`successful_downloads` lists, and (for the aggregation statements) the songs
whose submitted task returned `None`. -/
structure PhaseResult where
  temp : List String
  files : List String
  succs : List Song
  fails : List Song
  deriving DecidableEq, Repr

/-- The download loop of `download_playlist`: the submitted tasks, taken in
the order `as_completed` yields them (`order`), each run through
`download_song`; a task returning a file name appends to `downloaded_files`
and `successful_downloads`, a task returning `None` is only logged.  `fetch`
is the external media-fetch capability, giving the yt-dlp outcome of each
task. -/
def downloadPhase (fetch : Song × String → FetchOutcome) :
    List (Song × String) → List String → PhaseResult
  | [], temp => ⟨temp, [], [], []⟩
  | p :: ps, temp =>
    let step := download_song p.1 (fetch p) temp
    let rest := downloadPhase fetch ps step.1
    match step.2 with
    | some f => ⟨rest.temp, f :: rest.files, p.1 :: rest.succs, rest.fails⟩
    | none => ⟨rest.temp, rest.files, rest.succs, p.1 :: rest.fails⟩

/-- The zip-writing loop of `download_playlist`: for each name in
`downloaded_files`, in order, if the file exists in temp it is written to the
archive and removed from temp (`zipf.write` then `os.remove`); otherwise it is
only logged and skipped.  Returns the final temp state and the archive's entry
list in write order. -/
def packLoop : List String → List String → List String × List String
  | temp, [] => (temp, [])
  | temp, f :: fs =>
    if f ∈ temp then
      let rest := packLoop (temp.erase f) fs
      (rest.1, f :: rest.2)
    else
      packLoop temp fs

/-- The archive name `f'playlist_downloads_{timestamp}.zip'` built from the
timestamp the clock supplies. -/
def zipFileName (timestamp : String) : String :=
  "playlist_downloads_" ++ timestamp ++ ".zip"

/-- On-disk size in bytes of a produced archive, as consulted by
`os.path.getsize` in `start_download`.  A ZIP file always ends with the
22-byte end-of-central-directory record, and each entry contributes at least
a 30-byte local file header plus its name, so the size of a created archive
is positive whatever its entries. -/
def zipDiskSize (entries : List String) : Nat :=
  22 + (entries.map fun e => 30 + e.length).sum

/-- Embedding of `download_playlist songs links` as a function of the external oracles:
`fetch` gives each task's yt-dlp outcome, `order` is the completion order in
which `as_completed` yields the submitted tasks, `zipCreateFails` tells
whether opening the archive for writing raises (the `except` branch around
the zip block; modelled at creation time, before any entry is written), and
`timestamp` is the clock value naming the archive.  Returns the pair
`(zip_filename, successful_downloads)` and the updated storage. -/
def download_playlist (fetch : Song × String → FetchOutcome)
    (order : List (Song × String)) (zipCreateFails : Bool)
    (timestamp : String) (st : Storage) :
    (Option String × List Song) × Storage :=
  let r := downloadPhase fetch order st.temp
  if r.files = [] then
    ((none, r.succs), { st with temp := r.temp })
  else if zipCreateFails then
    ((none, r.succs), { st with temp := r.temp })
  else
    let packed := packLoop r.temp r.files
    ((some (zipFileName timestamp), r.succs),
      { temp := packed.1,
        archives := (zipFileName timestamp, packed.2) :: st.archives })

/-- The dict `start_download` returns, one field per key; keys absent from a
branch are `none`. -/
structure ConvertResponse where
  success : Bool
  phase : Option String
  songCount : Nat
  zipFile : Option String
  error : Option String
  errors : List String
  downloadedSongs : List Song
  deriving DecidableEq, Repr

/-- Embedding of `start_download songs`: resolves links, computes the `errors` list,
runs `download_playlist`, and builds the response.  The success branch
requires a zip file name that is truthy (non-empty), present on disk and of
positive size, exactly as
`if zip_filename: ... if os.path.exists(zip_path) and os.path.getsize(zip_path) > 0`. -/
def start_download (search : Song → SearchResult)
    (fetch : Song × String → FetchOutcome) (order : List (Song × String))
    (zipCreateFails : Bool) (timestamp : String) (songs : List Song)
    (st : Storage) : ConvertResponse × Storage :=
  let links := get_youtube_links search songs
  let errors := links.filter fun l => pyStartsWith l "Error:" || l == "No result found"
  let run := download_playlist fetch order zipCreateFails timestamp st
  let st1 := run.2
  let succs := run.1.2
  match run.1.1 with
  | some zname =>
    if zname ≠ "" then
      match st1.archives.find? (fun a => a.1 == zname) with
      | some entry =>
        if 0 < zipDiskSize entry.2 then
          ({ success := true, phase := some "complete", songCount := succs.length,
             zipFile := some zname, error := none, errors := errors,
             downloadedSongs := succs }, st1)
        else
          ({ success := false, phase := none, songCount := songs.length,
             zipFile := none,
             error := some "Failed to create zip file or no songs were downloaded",
             errors := errors, downloadedSongs := succs }, st1)
      | none =>
        ({ success := false, phase := none, songCount := songs.length,
           zipFile := none,
           error := some "Failed to create zip file or no songs were downloaded",
           errors := errors, downloadedSongs := succs }, st1)
    else
      ({ success := false, phase := none, songCount := songs.length,
         zipFile := none,
         error := some "Failed to create zip file or no songs were downloaded",
         errors := errors, downloadedSongs := succs }, st1)
  | none =>
    ({ success := false, phase := none, songCount := songs.length,
       zipFile := none,
       error := some "Failed to create zip file or no songs were downloaded",
       errors := errors, downloadedSongs := succs }, st1)

/-- Splitting a character list at every occurrence of `sep`, keeping empty
groups, with Python's `str.split(sep)` semantics: the empty string yields one
empty group, and leading, trailing or adjacent separators yield empty
groups. -/
def splitChars (sep : Char) : List Char → List (List Char)
  | [] => [[]]
  | c :: cs =>
    let r := splitChars sep cs
    if c = sep then [] :: r
    else
      match r with
      | [] => [[c]]
      | g :: gs => (c :: g) :: gs

/-- Python's `str.split(sep)` for a one-character separator. -/
def pySplit (s : String) (sep : Char) : List String :=
  (splitChars sep s.data).map fun g => ⟨g⟩

/-- Embedding of `extract_playlist_id` over the path component that
`urlparse(playlist_url)` extracts (the URL-parsing step itself is the external
standard library): split the path on `'/'`, and if `'playlist'` occurs among
the parts, return the part after its first occurrence; an out-of-range index
raises `IndexError`, which the surrounding `except` turns into `None`. -/
def extract_playlist_id (path : String) : Option String :=
  let parts := pySplit path '/'
  match parts.indexOf? "playlist" with
  | some i => parts.get? (i + 1)
  | none => none

/-- What one call to the external Spotify playlist provider
(`get_spotify_playlist_tracks`) can come back with: an exception (credential,
network or API failure) or playlist metadata with a track list. -/
inductive ProviderResult where
  | raises (msg : String)
  | ok (name : String) (owner : String) (songs : List Song)
  deriving DecidableEq, Repr

/-- The dict `process_playlist` returns. -/
structure PreviewResponse where
  success : Bool
  phase : Option String
  error : Option String
  playlistName : Option String
  playlistOwner : Option String
  trackCount : Option Nat
  songs : List Song
  deriving DecidableEq, Repr

/-- Embedding of `process_playlist`, with the number of calls made to the playlist
provider recorded alongside the response.  An id of `None` or `""` is falsy
in Python, so `if not playlist_id` rejects both before any provider call;
a provider exception is caught by the outer `except` and stringified;
an empty track list yields the empty-playlist error. -/
def process_playlist (provider : String → ProviderResult) (path : String) :
    PreviewResponse × Nat :=
  match extract_playlist_id path with
  | none =>
    ({ success := false, phase := none,
       error := some "Invalid Spotify playlist URL", playlistName := none,
       playlistOwner := none, trackCount := none, songs := [] }, 0)
  | some pid =>
    if pid = "" then
      ({ success := false, phase := none,
         error := some "Invalid Spotify playlist URL", playlistName := none,
         playlistOwner := none, trackCount := none, songs := [] }, 0)
    else
      match provider pid with
      | .raises msg =>
        ({ success := false, phase := none, error := some msg,
           playlistName := none, playlistOwner := none, trackCount := none,
           songs := [] }, 1)
      | .ok name owner songs =>
        if songs = [] then
          ({ success := false, phase := none,
             error := some "No tracks found in playlist", playlistName := none,
             playlistOwner := none, trackCount := none, songs := [] }, 1)
        else
          ({ success := true, phase := some "info", error := none,
             playlistName := some name, playlistOwner := some owner,
             trackCount := some songs.length, songs := songs }, 1)

/-- The preview entry point as a storage transformer, in the same style as
`start_download`: `process_playlist` performs no filesystem operation, so the
storage component passes through. -/
def previewOp (provider : String → ProviderResult) (path : String)
    (st : Storage) : (PreviewResponse × Nat) × Storage :=
  (process_playlist provider path, st)

/-- State of the `ThreadPoolExecutor(max_workers=5)` during one
`download_playlist` run, counting the submitted tasks that have not started,
those currently running, and those finished. -/
structure PoolState where
  queued : Nat
  running : Nat
  completed : Nat
  deriving DecidableEq, Repr

/-- One scheduler event of a `ThreadPoolExecutor` with `w` workers: a queued
task may start only while fewer than `w` tasks run, and a running task may
finish. -/
inductive PoolStep (w : Nat) : PoolState → PoolState → Prop
  | start (q r c : Nat) : r < w → PoolStep w ⟨q + 1, r, c⟩ ⟨q, r + 1, c⟩
  | finish (q r c : Nat) : PoolStep w ⟨q, r + 1, c⟩ ⟨q, r, c + 1⟩

/-- Pool state right after `executor.submit` has queued all `n` tasks. -/
def initPool (n : Nat) : PoolState := ⟨n, 0, 0⟩

/-- The pool states a run with `w` workers and initial state `s₀` can pass
through. -/
inductive PoolReachable (w : Nat) (s₀ : PoolState) : PoolState → Prop
  | init : PoolReachable w s₀ s₀
  | step {s t : PoolState} : PoolReachable w s₀ s → PoolStep w s t →
      PoolReachable w s₀ t

/-! ## Concrete oracles and inputs used by witnesses and counterexamples -/

/-- A track whose sanitized name is `"a - x"`. -/
def songA : Song := ⟨"x", "a", 100⟩

/-- A distinct track whose sanitized name is also `"a - x"` (the `?` is
dropped): a SafeName collision with `songA`. -/
def songB : Song := ⟨"x?", "a", 200⟩

/-- A third track, sanitizing to `"b - y"`. -/
def songC : Song := ⟨"y", "b", 300⟩

/-- A search capability that resolves every track to a video named after its
title. -/
def searchAll : Song → SearchResult := fun s => .video s.title

/-- A media fetcher whose every invocation writes its artifact. -/
def fetchWrote : Song × String → FetchOutcome := fun _ => .wrote

/-- A media fetcher that raises on `songC`'s task and writes otherwise. -/
def fetchNotC : Song × String → FetchOutcome :=
  fun p => if p.1 = songC then .raised else .wrote

/-! ## Helper lemmas -/

/-- The ASCII character class `[A-Za-z0-9\- ]` named by the spec. -/
def asciiSafeChar (c : Char) : Bool :=
  (decide (65 ≤ c.toNat) && decide (c.toNat ≤ 90))
  || (decide (97 ≤ c.toNat) && decide (c.toNat ≤ 122))
  || (decide (48 ≤ c.toNat) && decide (c.toNat ≤ 57))
  || c == '-' || c == ' '

theorem uint32_le_iff_toNat_le (a b : UInt32) : a ≤ b ↔ a.toNat ≤ b.toNat :=
  Iff.rfl

theorem isAlphanum_asciiSafe {c : Char} (h : c.isAlphanum = true) :
    asciiSafeChar c = true := by
  unfold Char.isAlphanum Char.isAlpha Char.isDigit Char.isUpper Char.isLower at h
  unfold asciiSafeChar
  simp only [Bool.or_eq_true, Bool.and_eq_true, ge_iff_le, decide_eq_true_eq,
    uint32_le_iff_toNat_le] at h ⊢
  have e65 : UInt32.toNat 65 = 65 := rfl
  have e90 : UInt32.toNat 90 = 90 := rfl
  have e97 : UInt32.toNat 97 = 97 := rfl
  have e122 : UInt32.toNat 122 = 122 := rfl
  have e48 : UInt32.toNat 48 = 48 := rfl
  have e57 : UInt32.toNat 57 = 57 := rfl
  rw [e65, e90, e97, e122, e48, e57] at h
  have hv : Char.toNat c = c.val.toNat := rfl
  rw [hv]
  omega

theorem pyIsAlnum_of_ascii {c : Char} (hc : c.toNat < 128)
    (h : pyIsAlnum c = true) : c.isAlphanum = true := by
  unfold pyIsAlnum at h
  simp only [Bool.or_eq_true, Bool.and_eq_true, decide_eq_true_eq,
    bne_iff_ne, beq_iff_eq] at h
  rcases h with (h1 | h2) | h3
  · exact h1
  · omega
  · omega

theorem sanitize_mem {artist title : String} {c : Char}
    (h : c ∈ (sanitize artist title).data) :
    (pyIsAlnum c || c == '-' || c == ' ') = true := by
  have h' : c ∈ (artist ++ " - " ++ title).data.filter
      (fun c => pyIsAlnum c || c == '-' || c == ' ') := h
  exact (List.mem_filter.mp h').2

theorem sanitize_mem_source {artist title : String} {c : Char}
    (h : c ∈ (sanitize artist title).data) :
    c ∈ (artist ++ " - " ++ title).data := by
  have h' : c ∈ (artist ++ " - " ++ title).data.filter
      (fun c => pyIsAlnum c || c == '-' || c == ' ') := h
  exact (List.mem_filter.mp h').1

/-! ## Claim theorems -/

/-- C2, counterexample: the sanitizer of `download_song` uses Python's
Unicode-aware `str.isalnum`, so for the input pair `("é", "")` its output
keeps the letter `é` (U+00E9), a character outside `[A-Za-z0-9\- ]`; the
claim that every output character lies in that ASCII set is false. -/
theorem c2_counterexample :
    'é' ∈ (sanitize "é" "").data ∧ asciiSafeChar 'é' = false := by decide

/-- C2, amended: `sanitize` is a pure deterministic function of
`(artist, title)`, every character of its output is alphanumeric in Python's
Unicode sense (`str.isalnum`) or a hyphen or a space — all other characters
of `"{artist} - {title}"` are dropped — and when the input pair is
ASCII-only the output does lie in `[A-Za-z0-9\- ]`. -/
theorem c2_sanitize_amended :
    (∀ a₁ t₁ a₂ t₂ : String, a₁ = a₂ → t₁ = t₂ →
       sanitize a₁ t₁ = sanitize a₂ t₂) ∧
    (∀ (a t : String) (c : Char), c ∈ (sanitize a t).data →
       (pyIsAlnum c || c == '-' || c == ' ') = true) ∧
    (∀ a t : String, (∀ c ∈ (a ++ " - " ++ t).data, c.toNat < 128) →
       ∀ c ∈ (sanitize a t).data, asciiSafeChar c = true) := by
  refine ⟨fun a₁ t₁ a₂ t₂ ha ht => by rw [ha, ht],
    fun a t c h => sanitize_mem h, fun a t hin c hc => ?_⟩
  have hsrc := sanitize_mem_source hc
  have hkeep := sanitize_mem hc
  simp only [Bool.or_eq_true, beq_iff_eq] at hkeep
  rcases hkeep with (hal | hd) | hs
  · exact isAlphanum_asciiSafe (pyIsAlnum_of_ascii (hin c hsrc) hal)
  · subst hd; decide
  · subst hs; decide

theorem c2_sanitize_amended_witness : asciiSafeChar 'a' = true :=
  c2_sanitize_amended.2.2 "a" "b" (by decide) 'a' (by decide)

/-- C5: `get_youtube_links` returns one link per input song, in input order
(the same length and order as its input), and for each position the link is
determined by that song's query alone: a provider-level error yields the
`ResolutionFailed` string, an empty candidate list yields the `NotFound`
string, and a candidate yields the resolved watch URL. -/
theorem c5_resolver_contract (search : Song → SearchResult)
    (songs : List Song) :
    (get_youtube_links search songs).length = songs.length ∧
    ∀ i : Nat,
      (get_youtube_links search songs)[i]? =
        songs[i]?.map fun s =>
          match search s with
          | .error _ => "Error: Could not search"
          | .noItems => "No result found"
          | .video vid => "https://www.youtube.com/watch?v=" ++ vid := by
  constructor
  · exact songs.length_map _
  · intro i
    unfold get_youtube_links
    rw [List.getElem?_map]
    cases songs[i]? with
    | none => rfl
    | some s => cases h : search s <;> simp [searchLink, h]

/-- C9: a `preview` call leaves the filesystem untouched — the temp directory
contents and the set of archives after `process_playlist` are those before
it. -/
theorem c9_preview_frame (provider : String → ProviderResult) (path : String)
    (st : Storage) :
    (previewOp provider path st).2.temp = st.temp ∧
    (previewOp provider path st).2.archives = st.archives :=
  ⟨rfl, rfl⟩

theorem poolReachable_running_le {w : Nat} {s₀ s : PoolState}
    (h : PoolReachable w s₀ s) (h0 : s₀.running ≤ w) : s.running ≤ w := by
  induction h with
  | init => exact h0
  | step _ hs ih =>
    cases hs with
    | start q r c hr => exact hr
    | finish q r c => simp only at ih ⊢; omega

theorem zip_self_map {α β : Type} (g : α → β) (l : List α) :
    l.zip (l.map g) = l.map fun a => (a, g a) := by
  induction l with
  | nil => rfl
  | cons a l ih => simp [List.zip_cons_cons, ih]

theorem submitted_mem_video (search : Song → SearchResult) (songs : List Song)
    {p : Song × String}
    (hp : p ∈ submitted songs (get_youtube_links search songs)) :
    ∃ vid, search p.1 = SearchResult.video vid := by
  unfold submitted get_youtube_links at hp
  rw [zip_self_map] at hp
  have hm := List.mem_filter.mp hp
  obtain ⟨s, _, hps⟩ := List.mem_map.mp hm.1
  have hsub : isSubmittable (searchLink (search s)) = true := by
    have h2 := hm.2; rw [← hps] at h2; exact h2
  rw [← hps]
  cases h : search s with
  | error msg =>
    rw [h] at hsub; simp only [searchLink] at hsub
    exact absurd hsub (by decide)
  | noItems =>
    rw [h] at hsub; simp only [searchLink] at hsub
    exact absurd hsub (by decide)
  | video vid => exact ⟨vid, rfl⟩

/-- C4: during a fetch run, every pool state reachable from the submission of
the tasks keeps at most 5 tasks running (the `ThreadPoolExecutor` has
`max_workers=5`, whatever the number of input tracks), and a task is
submitted only for the tracks whose search resolved to a video — links equal
to `"No result found"` or starting with `"Error:"` are filtered out before
submission. -/
theorem c4_pool_bound (search : Song → SearchResult) (songs : List Song)
    (s : PoolState)
    (h : PoolReachable 5
      (initPool (submitted songs (get_youtube_links search songs)).length) s) :
    s.running ≤ 5 ∧
    ∀ p ∈ submitted songs (get_youtube_links search songs),
      ∃ vid, search p.1 = SearchResult.video vid :=
  ⟨poolReachable_running_le h (Nat.zero_le 5),
   fun _ hp => submitted_mem_video search songs hp⟩

theorem c4_pool_bound_witness :
    (initPool
      (submitted [songA] (get_youtube_links searchAll [songA])).length).running
        ≤ 5 ∧
    ∀ p ∈ submitted [songA] (get_youtube_links searchAll [songA]),
      ∃ vid, searchAll p.1 = SearchResult.video vid :=
  c4_pool_bound searchAll [songA] _ PoolReachable.init

/-- C7: when the playlist URL's path has no `playlist` segment,
`process_playlist` returns the invalid-URL failure and performs zero calls to
the playlist provider; and when an identifier is extracted but the provider
returns zero tracks, it returns the empty-playlist failure. -/
theorem c7_preview_validation (provider : String → ProviderResult)
    (path : String) :
    ("playlist" ∉ pySplit path '/' →
       process_playlist provider path =
         ({ success := false, phase := none,
            error := some "Invalid Spotify playlist URL", playlistName := none,
            playlistOwner := none, trackCount := none, songs := [] }, 0)) ∧
    (∀ pid name owner, extract_playlist_id path = some pid → pid ≠ "" →
       provider pid = .ok name owner [] →
       (process_playlist provider path).1 =
         { success := false, phase := none,
           error := some "No tracks found in playlist", playlistName := none,
           playlistOwner := none, trackCount := none, songs := [] }) := by
  constructor
  · intro hnot
    have hidx : (pySplit path '/').indexOf? "playlist" = none := by
      rw [List.indexOf?_eq_none_iff]
      intro x hx
      simp only [beq_iff_eq]
      intro hxe
      exact hnot (hxe ▸ hx)
    simp [process_playlist, extract_playlist_id, hidx]
  · intro pid name owner hext hne hprov
    simp [process_playlist, hext, hprov, hne]

theorem c7_preview_validation_witness :
    (process_playlist (fun _ => ProviderResult.ok "n" "o" []) "/foo/bar" =
      ({ success := false, phase := none,
         error := some "Invalid Spotify playlist URL", playlistName := none,
         playlistOwner := none, trackCount := none, songs := [] }, 0)) ∧
    (process_playlist (fun _ => ProviderResult.ok "n" "o" [])
        "/playlist/abc").1 =
      { success := false, phase := none,
        error := some "No tracks found in playlist", playlistName := none,
        playlistOwner := none, trackCount := none, songs := [] } :=
  ⟨(c7_preview_validation (fun _ => ProviderResult.ok "n" "o" []) "/foo/bar").1
      (by decide),
   (c7_preview_validation (fun _ => ProviderResult.ok "n" "o" [])
      "/playlist/abc").2 "abc" "n" "o" (by decide) (by decide) rfl⟩

theorem downloadPhase_cons (fetch : Song × String → FetchOutcome)
    (p : Song × String) (ps : List (Song × String)) (temp : List String) :
    downloadPhase fetch (p :: ps) temp =
      match (download_song p.1 (fetch p) temp).2 with
      | some f =>
        ⟨(downloadPhase fetch ps (download_song p.1 (fetch p) temp).1).temp,
         f :: (downloadPhase fetch ps (download_song p.1 (fetch p) temp).1).files,
         p.1 :: (downloadPhase fetch ps (download_song p.1 (fetch p) temp).1).succs,
         (downloadPhase fetch ps (download_song p.1 (fetch p) temp).1).fails⟩
      | none =>
        ⟨(downloadPhase fetch ps (download_song p.1 (fetch p) temp).1).temp,
         (downloadPhase fetch ps (download_song p.1 (fetch p) temp).1).files,
         (downloadPhase fetch ps (download_song p.1 (fetch p) temp).1).succs,
         p.1 :: (downloadPhase fetch ps (download_song p.1 (fetch p) temp).1).fails⟩ :=
  rfl

theorem downloadPhase_count (fetch : Song × String → FetchOutcome)
    (ps : List (Song × String)) :
    ∀ temp : List String,
      (downloadPhase fetch ps temp).succs.length
        + (downloadPhase fetch ps temp).fails.length = ps.length := by
  induction ps with
  | nil => intro temp; rfl
  | cons p ps ih =>
    intro temp
    rw [downloadPhase_cons]
    cases (download_song p.1 (fetch p) temp).2 with
    | some f =>
      simp only [List.length_cons]
      have := ih (download_song p.1 (fetch p) temp).1
      omega
    | none =>
      simp only [List.length_cons]
      have := ih (download_song p.1 (fetch p) temp).1
      omega

theorem download_song_some_name {song : Song} {out : FetchOutcome}
    {temp : List String} {f : String}
    (h : (download_song song out temp).2 = some f) :
    f = downloadedFileName song := by
  unfold download_song at h
  cases out with
  | raised => simp at h
  | wrote => simp at h; exact h.symm
  | noFile =>
    simp only at h
    split at h
    · exact (Option.some_inj.mp h).symm
    · simp at h

theorem download_song_some_mem {song : Song} {out : FetchOutcome}
    {temp : List String} {f : String}
    (h : (download_song song out temp).2 = some f) :
    f ∈ (download_song song out temp).1 := by
  cases out with
  | raised => simp [download_song] at h
  | wrote =>
    simp only [download_song] at h ⊢
    rw [← Option.some_inj.mp h]
    unfold insertFile
    split
    · assumption
    · exact List.mem_cons_self _ _
  | noFile =>
    simp only [download_song] at h ⊢
    split at h
    · rw [← Option.some_inj.mp h]; assumption
    · simp at h

theorem download_song_temp_mono (song : Song) (out : FetchOutcome)
    (temp : List String) : temp ⊆ (download_song song out temp).1 := by
  cases out with
  | raised => exact fun _ h => h
  | wrote =>
    simp only [download_song]
    unfold insertFile
    split
    · exact fun _ h => h
    · exact fun _ h => List.mem_cons_of_mem _ h
  | noFile => exact fun _ h => h

theorem downloadPhase_temp_mono (fetch : Song × String → FetchOutcome)
    (ps : List (Song × String)) :
    ∀ temp : List String, temp ⊆ (downloadPhase fetch ps temp).temp := by
  induction ps with
  | nil => intro temp; exact fun _ h => h
  | cons p ps ih =>
    intro temp
    rw [downloadPhase_cons]
    cases (download_song p.1 (fetch p) temp).2 <;>
      exact fun x hx =>
        ih (download_song p.1 (fetch p) temp).1
          (download_song_temp_mono p.1 (fetch p) temp hx)

theorem downloadPhase_files_mem (fetch : Song × String → FetchOutcome)
    (ps : List (Song × String)) :
    ∀ temp : List String, ∀ f ∈ (downloadPhase fetch ps temp).files,
      f ∈ (downloadPhase fetch ps temp).temp := by
  induction ps with
  | nil => intro temp f hf; simp [downloadPhase] at hf
  | cons p ps ih =>
    intro temp f hf
    rw [downloadPhase_cons] at hf ⊢
    cases hsd : (download_song p.1 (fetch p) temp).2 with
    | some g =>
      rw [hsd] at hf
      simp only [List.mem_cons] at hf
      rcases hf with rfl | hf
      · exact downloadPhase_temp_mono fetch ps _ (download_song_some_mem hsd)
      · exact ih _ f hf
    | none =>
      rw [hsd] at hf
      exact ih _ f hf

theorem downloadPhase_files_eq (fetch : Song × String → FetchOutcome)
    (ps : List (Song × String)) :
    ∀ temp : List String,
      (downloadPhase fetch ps temp).files
        = (downloadPhase fetch ps temp).succs.map downloadedFileName := by
  induction ps with
  | nil => intro temp; rfl
  | cons p ps ih =>
    intro temp
    rw [downloadPhase_cons]
    cases hsd : (download_song p.1 (fetch p) temp).2 with
    | some g =>
      simp only [List.map_cons]
      rw [download_song_some_name hsd, ih]
    | none => exact ih _

theorem insertFile_nodup {f : String} {temp : List String} (h : temp.Nodup) :
    (insertFile f temp).Nodup := by
  unfold insertFile
  split
  · exact h
  · exact List.nodup_cons.mpr ⟨by assumption, h⟩

theorem download_song_nodup (song : Song) (out : FetchOutcome)
    {temp : List String} (h : temp.Nodup) :
    (download_song song out temp).1.Nodup := by
  unfold download_song
  cases out with
  | raised => exact h
  | wrote => exact insertFile_nodup h
  | noFile => exact h

theorem downloadPhase_nodup (fetch : Song × String → FetchOutcome)
    (ps : List (Song × String)) :
    ∀ {temp : List String}, temp.Nodup →
      (downloadPhase fetch ps temp).temp.Nodup := by
  induction ps with
  | nil => intro temp h; exact h
  | cons p ps ih =>
    intro temp h
    rw [downloadPhase_cons]
    cases (download_song p.1 (fetch p) temp).2 <;>
      exact ih (download_song_nodup p.1 (fetch p) h)

theorem downloadPhase_wrote_mem (fetch : Song × String → FetchOutcome)
    (ps : List (Song × String)) :
    ∀ temp : List String, ∀ p ∈ ps, fetch p = .wrote →
      p.1 ∈ (downloadPhase fetch ps temp).succs := by
  induction ps with
  | nil => intro temp p hp; simp at hp
  | cons q ps ih =>
    intro temp p hp hw
    rw [downloadPhase_cons]
    rcases List.mem_cons.mp hp with rfl | hp
    · rw [hw]
      simp only [download_song]
      exact List.mem_cons_self _ _
    · cases (download_song q.1 (fetch q) temp).2 with
      | some f => exact List.mem_cons_of_mem _ (ih _ p hp hw)
      | none => exact ih _ p hp hw

theorem packLoop_cons (temp : List String) (f : String) (fs : List String) :
    packLoop temp (f :: fs) =
      if f ∈ temp then
        ((packLoop (temp.erase f) fs).1, f :: (packLoop (temp.erase f) fs).2)
      else packLoop temp fs := by
  conv_lhs => rw [packLoop]

theorem packLoop_temp_subset (fs : List String) :
    ∀ temp : List String, (packLoop temp fs).1 ⊆ temp := by
  induction fs with
  | nil => intro temp; exact fun _ h => h
  | cons f fs ih =>
    intro temp
    rw [packLoop_cons]
    split
    · exact fun x hx =>
        List.erase_subset f temp (ih (temp.erase f) hx)
    · exact ih temp

theorem packLoop_entries_subset (fs : List String) :
    ∀ temp : List String, ∀ x ∈ (packLoop temp fs).2, x ∈ temp := by
  induction fs with
  | nil => intro temp x hx; simp [packLoop] at hx
  | cons f fs ih =>
    intro temp x hx
    rw [packLoop_cons] at hx
    by_cases hf : f ∈ temp
    · rw [if_pos hf] at hx
      rcases List.mem_cons.mp hx with rfl | hx
      · exact hf
      · exact List.erase_subset f temp (ih (temp.erase f) x hx)
    · rw [if_neg hf] at hx
      exact ih temp x hx

theorem packLoop_deleted (fs : List String) :
    ∀ {temp : List String}, temp.Nodup → ∀ f ∈ fs,
      f ∉ (packLoop temp fs).1 := by
  induction fs with
  | nil => intro temp _ f hf; simp at hf
  | cons g fs ih =>
    intro temp hnd f hf
    rw [packLoop_cons]
    by_cases hg : g ∈ temp
    · rw [if_pos hg]
      rcases List.mem_cons.mp hf with rfl | hfs
      · intro hmem
        have hin := packLoop_temp_subset fs (temp.erase f) hmem
        exact absurd hin (by
          intro hx
          exact absurd (hnd.mem_erase_iff.mp hx).1 (by simp))
      · exact ih (hnd.erase g) f hfs
    · rw [if_neg hg]
      rcases List.mem_cons.mp hf with rfl | hfs
      · intro hmem; exact hg (packLoop_temp_subset fs temp hmem)
      · exact ih hnd f hfs

theorem packLoop_mem_entries (fs : List String) :
    ∀ {temp : List String}, temp.Nodup → ∀ x : String,
      (x ∈ (packLoop temp fs).2 ↔ x ∈ fs ∧ x ∈ temp) := by
  induction fs with
  | nil => intro temp _ x; simp [packLoop]
  | cons g fs ih =>
    intro temp hnd x
    rw [packLoop_cons]
    by_cases hg : g ∈ temp
    · rw [if_pos hg]
      simp only [List.mem_cons]
      rw [ih (hnd.erase g) x]
      constructor
      · rintro (rfl | ⟨hxfs, hxe⟩)
        · exact ⟨Or.inl rfl, hg⟩
        · exact ⟨Or.inr hxfs, (hnd.mem_erase_iff.mp hxe).2⟩
      · rintro ⟨rfl | hxfs, hxt⟩
        · exact Or.inl rfl
        · by_cases hxg : x = g
          · exact Or.inl hxg
          · exact Or.inr ⟨hxfs, hnd.mem_erase_iff.mpr ⟨hxg, hxt⟩⟩
    · rw [if_neg hg]
      rw [ih hnd x]
      simp only [List.mem_cons]
      constructor
      · rintro ⟨h1, h2⟩; exact ⟨Or.inr h1, h2⟩
      · rintro ⟨rfl | h1, h2⟩
        · exact absurd h2 hg
        · exact ⟨h1, h2⟩

theorem zipFileName_ne_empty (t : String) : zipFileName t ≠ "" := by
  unfold zipFileName
  intro h
  have hl : ("playlist_downloads_" ++ t ++ ".zip").length = 0 := by
    rw [h]; rfl
  rw [String.length_append, String.length_append] at hl
  have h19 : ("playlist_downloads_" : String).length = 19 := by decide
  have h4 : (".zip" : String).length = 4 := by decide
  omega

/-- The `errors` list computed by `start_download`. -/
def convertErrors (search : Song → SearchResult) (songs : List Song) :
    List String :=
  (get_youtube_links search songs).filter
    fun l => pyStartsWith l "Error:" || l == "No result found"

theorem download_playlist_fail (fetch : Song × String → FetchOutcome)
    (order : List (Song × String)) (zc : Bool) (timestamp : String)
    (st : Storage)
    (h : (downloadPhase fetch order st.temp).files = [] ∨ zc = true) :
    download_playlist fetch order zc timestamp st =
      ((none, (downloadPhase fetch order st.temp).succs),
       { st with temp := (downloadPhase fetch order st.temp).temp }) := by
  unfold download_playlist
  rcases h with h | h
  · rw [if_pos h]
  · by_cases h2 : (downloadPhase fetch order st.temp).files = []
    · rw [if_pos h2]
    · rw [if_neg h2, h, if_pos rfl]

theorem download_playlist_success (fetch : Song × String → FetchOutcome)
    (order : List (Song × String)) (timestamp : String) (st : Storage)
    (h : (downloadPhase fetch order st.temp).files ≠ []) :
    download_playlist fetch order false timestamp st =
      ((some (zipFileName timestamp), (downloadPhase fetch order st.temp).succs),
       { temp := (packLoop (downloadPhase fetch order st.temp).temp
                    (downloadPhase fetch order st.temp).files).1,
         archives := (zipFileName timestamp,
            (packLoop (downloadPhase fetch order st.temp).temp
              (downloadPhase fetch order st.temp).files).2) :: st.archives }) := by
  unfold download_playlist
  rw [if_neg h]
  simp only [Bool.false_eq_true, if_false]

theorem start_download_fail (search : Song → SearchResult)
    (fetch : Song × String → FetchOutcome) (order : List (Song × String))
    (zc : Bool) (timestamp : String) (songs : List Song) (st : Storage)
    (h : (downloadPhase fetch order st.temp).files = [] ∨ zc = true) :
    start_download search fetch order zc timestamp songs st =
      ({ success := false, phase := none, songCount := songs.length,
         zipFile := none,
         error := some "Failed to create zip file or no songs were downloaded",
         errors := convertErrors search songs,
         downloadedSongs := (downloadPhase fetch order st.temp).succs },
       { st with temp := (downloadPhase fetch order st.temp).temp }) := by
  unfold start_download
  rw [download_playlist_fail fetch order zc timestamp st h]
  rfl

theorem start_download_success (search : Song → SearchResult)
    (fetch : Song × String → FetchOutcome) (order : List (Song × String))
    (timestamp : String) (songs : List Song) (st : Storage)
    (h : (downloadPhase fetch order st.temp).files ≠ []) :
    start_download search fetch order false timestamp songs st =
      ({ success := true, phase := some "complete",
         songCount := (downloadPhase fetch order st.temp).succs.length,
         zipFile := some (zipFileName timestamp), error := none,
         errors := convertErrors search songs,
         downloadedSongs := (downloadPhase fetch order st.temp).succs },
       { temp := (packLoop (downloadPhase fetch order st.temp).temp
                    (downloadPhase fetch order st.temp).files).1,
         archives := (zipFileName timestamp,
            (packLoop (downloadPhase fetch order st.temp).temp
              (downloadPhase fetch order st.temp).files).2) :: st.archives }) := by
  unfold start_download
  rw [download_playlist_success fetch order timestamp st h]
  have hfind : List.find? (fun a => a.1 == zipFileName timestamp)
      ((zipFileName timestamp,
        (packLoop (downloadPhase fetch order st.temp).temp
          (downloadPhase fetch order st.temp).files).2) :: st.archives)
      = some (zipFileName timestamp,
        (packLoop (downloadPhase fetch order st.temp).temp
          (downloadPhase fetch order st.temp).files).2) := by
    apply List.find?_cons_of_pos
    simp
  simp only [ne_eq, zipFileName_ne_empty timestamp, not_false_eq_true, if_true,
    hfind]
  rw [if_pos (by simp [zipDiskSize])]
  rfl

/-- A search capability that finds no candidate for any track. -/
def searchNone : Song → SearchResult := fun _ => .noItems

/-- C1: after a convert run the success and failure partitions account for
every input track: the tracks reported in `downloadedSongs`, plus the tracks
whose submitted fetch task produced no artifact, plus the tracks whose link
never resolved (and so were never submitted), number exactly N. -/
theorem c1_partition (search : Song → SearchResult)
    (fetch : Song × String → FetchOutcome) (order : List (Song × String))
    (zc : Bool) (timestamp : String) (songs : List Song) (st : Storage)
    (hperm : order.Perm (submitted songs (get_youtube_links search songs))) :
    (start_download search fetch order zc timestamp songs
        st).1.downloadedSongs.length
      + ((downloadPhase fetch order st.temp).fails.length
        + (unresolvedPairs songs (get_youtube_links search songs)).length)
      = songs.length := by
  have hds : (start_download search fetch order zc timestamp songs
      st).1.downloadedSongs = (downloadPhase fetch order st.temp).succs := by
    cases zc with
    | true => rw [start_download_fail _ _ _ _ _ _ _ (Or.inr rfl)]
    | false =>
      by_cases hf : (downloadPhase fetch order st.temp).files = []
      · rw [start_download_fail _ _ _ _ _ _ _ (Or.inl hf)]
      · rw [start_download_success _ _ _ _ _ _ hf]
  rw [hds]
  have hcount := downloadPhase_count fetch order st.temp
  have hlen : order.length
      = (submitted songs (get_youtube_links search songs)).length :=
    hperm.length_eq
  have hpart : (submitted songs (get_youtube_links search songs)).length
      + (unresolvedPairs songs (get_youtube_links search songs)).length
      = (songs.zip (get_youtube_links search songs)).length := by
    unfold submitted unresolvedPairs
    exact (List.length_eq_length_filter_add _).symm
  have hzip : (songs.zip (get_youtube_links search songs)).length
      = songs.length := by
    rw [List.length_zip]
    unfold get_youtube_links
    rw [List.length_map]
    exact Nat.min_self _
  omega

theorem c1_partition_witness :
    (start_download searchAll fetchWrote
        (submitted [songA] (get_youtube_links searchAll [songA])) false "t"
        [songA] ⟨[], []⟩).1.downloadedSongs.length
      + ((downloadPhase fetchWrote
            (submitted [songA] (get_youtube_links searchAll [songA]))
            (Storage.mk [] []).temp).fails.length
        + (unresolvedPairs [songA]
            (get_youtube_links searchAll [songA])).length)
      = [songA].length :=
  c1_partition searchAll fetchWrote _ false "t" [songA] ⟨[], []⟩
    (List.Perm.refl _)

/-- C6: `start_download` reports success exactly when a (non-empty on disk)
archive was produced — equivalently, when a new archive was pushed onto the
archive store — every produced archive has positive on-disk size, every
failure response still lists the individually succeeded tracks in
`downloadedSongs`, and when no track resolves (nothing is submitted) the run
fails with no archive produced and an empty `downloadedSongs`. -/
theorem c6_report (search : Song → SearchResult)
    (fetch : Song × String → FetchOutcome) (order : List (Song × String))
    (zc : Bool) (timestamp : String) (songs : List Song) (st : Storage) :
    ((start_download search fetch order zc timestamp songs st).1.success = true
       ↔ ∃ entries,
           (start_download search fetch order zc timestamp songs st).2.archives
             = (zipFileName timestamp, entries) :: st.archives) ∧
    (∀ entries,
       (start_download search fetch order zc timestamp songs st).2.archives
           = (zipFileName timestamp, entries) :: st.archives →
         0 < zipDiskSize entries) ∧
    ((start_download search fetch order zc timestamp songs st).1.success = false →
       (start_download search fetch order zc timestamp songs
           st).1.downloadedSongs
         = (downloadPhase fetch order st.temp).succs) ∧
    (order.Perm (submitted songs (get_youtube_links search songs)) →
       submitted songs (get_youtube_links search songs) = [] →
       (start_download search fetch order zc timestamp songs st).1.success
           = false ∧
         (start_download search fetch order zc timestamp songs st).2.archives
           = st.archives ∧
         (start_download search fetch order zc timestamp songs
             st).1.downloadedSongs = []) := by
  have hsize : ∀ entries : List String, 0 < zipDiskSize entries := by
    intro entries
    simp only [zipDiskSize]
    omega
  have hfailcase : ∀ h : (downloadPhase fetch order st.temp).files = [] ∨ zc = true,
      ((start_download search fetch order zc timestamp songs st).1.success = true
         ↔ ∃ entries,
             (start_download search fetch order zc timestamp songs st).2.archives
               = (zipFileName timestamp, entries) :: st.archives) ∧
      (∀ entries,
         (start_download search fetch order zc timestamp songs st).2.archives
             = (zipFileName timestamp, entries) :: st.archives →
           0 < zipDiskSize entries) ∧
      ((start_download search fetch order zc timestamp songs st).1.success = false →
         (start_download search fetch order zc timestamp songs
             st).1.downloadedSongs
           = (downloadPhase fetch order st.temp).succs) := by
    intro h
    rw [start_download_fail _ _ _ _ _ _ _ h]
    refine ⟨⟨fun hc => absurd hc (by simp), fun hc => ?_⟩,
      fun entries _ => hsize entries, fun _ => rfl⟩
    obtain ⟨entries, he⟩ := hc
    have hlen := congrArg List.length he
    simp at hlen
  have hmain :
      ((start_download search fetch order zc timestamp songs st).1.success = true
         ↔ ∃ entries,
             (start_download search fetch order zc timestamp songs st).2.archives
               = (zipFileName timestamp, entries) :: st.archives) ∧
      (∀ entries,
         (start_download search fetch order zc timestamp songs st).2.archives
             = (zipFileName timestamp, entries) :: st.archives →
           0 < zipDiskSize entries) ∧
      ((start_download search fetch order zc timestamp songs st).1.success = false →
         (start_download search fetch order zc timestamp songs
             st).1.downloadedSongs
           = (downloadPhase fetch order st.temp).succs) := by
    cases zc with
    | true => exact hfailcase (Or.inr rfl)
    | false =>
      by_cases hf : (downloadPhase fetch order st.temp).files = []
      · exact hfailcase (Or.inl hf)
      · rw [start_download_success _ _ _ _ _ _ hf]
        exact ⟨⟨fun _ => ⟨_, rfl⟩, fun _ => rfl⟩,
          fun entries _ => hsize entries, fun hc => absurd hc (by simp)⟩
  refine ⟨hmain.1, hmain.2.1, hmain.2.2, fun hperm hsub => ?_⟩
  have horder : order = [] := by
    rw [hsub] at hperm
    exact hperm.eq_nil
  subst horder
  have hfiles : (downloadPhase fetch [] st.temp).files = [] := rfl
  rw [start_download_fail _ _ _ _ _ _ _ (Or.inl hfiles)]
  exact ⟨rfl, rfl, rfl⟩

theorem c6_report_witness :
    (start_download searchNone fetchWrote [] false "t" [songC]
        ⟨[], []⟩).1.success = false ∧
    (start_download searchNone fetchWrote [] false "t" [songC]
        ⟨[], []⟩).2.archives = (⟨[], []⟩ : Storage).archives ∧
    (start_download searchNone fetchWrote [] false "t" [songC]
        ⟨[], []⟩).1.downloadedSongs = [] :=
  (c6_report searchNone fetchWrote [] false "t" [songC] ⟨[], []⟩).2.2.2
    (by decide) (by decide)

/-- C8 (amended): per-track errors never abort the convert run — every
submitted track whose fetch wrote its artifact is reported in
`downloadedSongs` whatever happened to the other tracks — and resolution
errors (no candidate found, search failure) are collected into the
response's `errors` list alongside the successes; fetch/transcode failures,
however, are not individually reported: they are visible only as omissions
from `downloadedSongs`.  Every response from preview and convert is a
structured result value carrying a success flag, with an error message
present on every failure; internal exceptions are caught at each
entry-point boundary and returned inside the structured result, but they
are not translated into an error taxonomy: the caught exception's raw
message is surfaced verbatim in the `error` field. -/
theorem c8_amended (search : Song → SearchResult)
    (fetch : Song × String → FetchOutcome) (order : List (Song × String))
    (zc : Bool) (timestamp : String) (songs : List Song) (st : Storage)
    (provider : String → ProviderResult) (path : String)
    (hperm : order.Perm (submitted songs (get_youtube_links search songs))) :
    ((start_download search fetch order zc timestamp songs st).1.success = false →
       (start_download search fetch order zc timestamp songs
           st).1.error.isSome = true) ∧
    ((start_download search fetch order zc timestamp songs st).1.errors
       = convertErrors search songs) ∧
    (∀ p ∈ submitted songs (get_youtube_links search songs),
       fetch p = .wrote →
         p.1 ∈ (start_download search fetch order zc timestamp songs
           st).1.downloadedSongs) ∧
    ((process_playlist provider path).1.success = false →
       (process_playlist provider path).1.error.isSome = true) ∧
    (∀ pid msg, extract_playlist_id path = some pid → pid ≠ "" →
       provider pid = .raises msg →
       (process_playlist provider path).1 =
         { success := false, phase := none, error := some msg,
           playlistName := none, playlistOwner := none, trackCount := none,
           songs := [] }) := by
  have hshape :
      ((start_download search fetch order zc timestamp songs st).1.error.isSome
          = true ∨
        (start_download search fetch order zc timestamp songs st).1.success
          = true) ∧
      ((start_download search fetch order zc timestamp songs st).1.errors
        = convertErrors search songs) ∧
      ((start_download search fetch order zc timestamp songs
          st).1.downloadedSongs = (downloadPhase fetch order st.temp).succs) := by
    cases zc with
    | true =>
      rw [start_download_fail _ _ _ _ _ _ _ (Or.inr rfl)]
      exact ⟨Or.inl rfl, rfl, rfl⟩
    | false =>
      by_cases hf : (downloadPhase fetch order st.temp).files = []
      · rw [start_download_fail _ _ _ _ _ _ _ (Or.inl hf)]
        exact ⟨Or.inl rfl, rfl, rfl⟩
      · rw [start_download_success _ _ _ _ _ _ hf]
        exact ⟨Or.inr rfl, rfl, rfl⟩
  have hpreview : (process_playlist provider path).1.success = false →
      (process_playlist provider path).1.error.isSome = true := by
    unfold process_playlist
    split
    · intro _; rfl
    · split
      · intro _; rfl
      · split
        · intro _; rfl
        · split
          · intro _; rfl
          · intro h; simp at h
  refine ⟨fun hfail => ?_, hshape.2.1, fun p hp hw => ?_, hpreview,
    fun pid msg hext hne hprov => ?_⟩
  · rcases hshape.1 with h | h
    · exact h
    · rw [hfail] at h
      exact absurd h (by simp)
  · rw [hshape.2.2]
    exact downloadPhase_wrote_mem fetch order st.temp p
      (hperm.mem_iff.mpr hp) hw
  · simp [process_playlist, hext, hprov, hne]

theorem c8_amended_witness :
    songA ∈ (start_download searchAll fetchWrote
        (submitted [songA] (get_youtube_links searchAll [songA])) false "t"
        [songA] ⟨[], []⟩).1.downloadedSongs ∧
    (process_playlist (fun _ => ProviderResult.raises
        "SpotifyException: http status 401") "/playlist/abc").1 =
      { success := false, phase := none,
        error := some "SpotifyException: http status 401",
        playlistName := none, playlistOwner := none, trackCount := none,
        songs := [] } :=
  ⟨(c8_amended searchAll fetchWrote _ false "t" [songA] ⟨[], []⟩
      (fun _ => ProviderResult.raises "SpotifyException: http status 401")
      "/playlist/abc" (List.Perm.refl _)).2.2.1
      (songA, searchLink (searchAll songA)) (by decide) (by decide),
   (c8_amended searchAll fetchWrote
      (submitted [songA] (get_youtube_links searchAll [songA])) false "t"
      [songA] ⟨[], []⟩
      (fun _ => ProviderResult.raises "SpotifyException: http status 401")
      "/playlist/abc" (List.Perm.refl _)).2.2.2.2 "abc"
      "SpotifyException: http status 401" (by decide) (by decide) rfl⟩

/-- C8, counterexample to the claim as stated, in both failing respects:
first, in a convert run where `songC` resolves but its fetch raises, the run
nonetheless succeeds and its response reports the fetch failure nowhere —
`errors` is empty and `songC` is simply absent from `downloadedSongs` — so
fetch/transcode per-track errors are not "collected and reported alongside
successes"; second, a preview run whose provider call raises returns the
caught exception's raw internal failure message verbatim as the response's
error (`error: str(e)`), not a translation into the error taxonomy. -/
theorem c8_counterexample :
    ((start_download searchAll fetchNotC
        (submitted [songA, songC] (get_youtube_links searchAll [songA, songC]))
        false "t" [songA, songC] ⟨[], []⟩).1
      = { success := true, phase := some "complete", songCount := 1,
          zipFile := some (zipFileName "t"), error := none, errors := [],
          downloadedSongs := [songA] } ∧
     fetchNotC (songC, searchLink (searchAll songC)) = .raised) ∧
    (process_playlist (fun _ => ProviderResult.raises
        "spotipy.exceptions.SpotifyException: http status: 401, code: -1")
        "/playlist/37i9dQZF1DX0XUsuxWHRQd").1.error
      = some
        "spotipy.exceptions.SpotifyException: http status: 401, code: -1" := by
  exact ⟨⟨by decide, by decide⟩, by decide⟩

/-- C3: when `download_playlist` returns an archive name, the produced
archive's entry set is exactly the set of SafeName-derived file names of the
succeeded tracks — no more, no fewer — and every artifact that was an input
to packaging (every name in `downloaded_files`) is gone from temp storage. -/
theorem c3_pack_exactness (fetch : Song × String → FetchOutcome)
    (order : List (Song × String)) (zc : Bool) (timestamp : String)
    (st : Storage) (zname : String) (hnd : st.temp.Nodup)
    (hsome : (download_playlist fetch order zc timestamp st).1.1 = some zname) :
    ∃ entries,
      (download_playlist fetch order zc timestamp st).2.archives
        = (zname, entries) :: st.archives ∧
      (∀ f ∈ (downloadPhase fetch order st.temp).files,
        f ∉ (download_playlist fetch order zc timestamp st).2.temp) ∧
      (∀ x, x ∈ entries ↔
        x ∈ ((download_playlist fetch order zc timestamp st).1.2).map
          downloadedFileName) := by
  cases zc with
  | true =>
    rw [download_playlist_fail _ _ _ _ _ (Or.inr rfl)] at hsome
    simp at hsome
  | false =>
    by_cases hf : (downloadPhase fetch order st.temp).files = []
    · rw [download_playlist_fail _ _ _ _ _ (Or.inl hf)] at hsome
      simp at hsome
    · rw [download_playlist_success _ _ _ _ hf] at hsome ⊢
      simp only at hsome
      have hz : zname = zipFileName timestamp := by
        exact (Option.some_inj.mp hsome).symm
      subst hz
      have hndr := downloadPhase_nodup fetch order hnd
      refine ⟨(packLoop (downloadPhase fetch order st.temp).temp
        (downloadPhase fetch order st.temp).files).2, rfl, ?_, ?_⟩
      · intro f hfmem
        exact packLoop_deleted _ hndr f hfmem
      · intro x
        have hm := packLoop_mem_entries
          (downloadPhase fetch order st.temp).files hndr x
        have hfe := downloadPhase_files_eq fetch order st.temp
        constructor
        · intro hx
          have h1 := (hm.mp hx).1
          rw [← hfe]
          exact h1
        · intro hx
          rw [← hfe] at hx
          exact hm.mpr ⟨hx, downloadPhase_files_mem fetch order st.temp x hx⟩

theorem c3_pack_exactness_witness :
    ∃ entries,
      (download_playlist fetchWrote [(songA, "u")] false "t"
          ⟨[], []⟩).2.archives
        = (zipFileName "t", entries) :: (⟨[], []⟩ : Storage).archives ∧
      (∀ f ∈ (downloadPhase fetchWrote [(songA, "u")]
          (Storage.mk [] []).temp).files,
        f ∉ (download_playlist fetchWrote [(songA, "u")] false "t"
          ⟨[], []⟩).2.temp) ∧
      (∀ x, x ∈ entries ↔
        x ∈ ((download_playlist fetchWrote [(songA, "u")] false "t"
          ⟨[], []⟩).1.2).map downloadedFileName) :=
  c3_pack_exactness fetchWrote [(songA, "u")] false "t" ⟨[], []⟩
    (zipFileName "t") List.nodup_nil (by decide)

/-- C10: a name listed in `downloaded_files` that is absent from temp storage
at write time is silently skipped — it is never added to the archive, no
error is recorded, and packaging still returns the archive name — and on the
concrete collision input (`songA` and `songB` both sanitize to `"a - x"`)
the run reports both tracks as succeeded while the archive holds a single
entry, so one succeeded track has no entry of its own. -/
theorem c10_silent_skip :
    (∀ (temp fs : List String) (f : String), f ∉ temp →
       f ∉ (packLoop temp fs).2) ∧
    (start_download searchAll fetchWrote
        (submitted [songA, songB] (get_youtube_links searchAll [songA, songB]))
        false "t" [songA, songB] ⟨[], []⟩).1
      = { success := true, phase := some "complete", songCount := 2,
          zipFile := some (zipFileName "t"), error := none, errors := [],
          downloadedSongs := [songA, songB] } ∧
    (start_download searchAll fetchWrote
        (submitted [songA, songB] (get_youtube_links searchAll [songA, songB]))
        false "t" [songA, songB] ⟨[], []⟩).2.archives
      = [(zipFileName "t", ["a - x.mp3"])] :=
  ⟨fun temp fs f hf hmem => hf (packLoop_entries_subset fs temp f hmem),
   by decide, by decide⟩

theorem c10_silent_skip_witness : "f.mp3" ∉ (packLoop [] ["f.mp3"]).2 :=
  c10_silent_skip.1 [] ["f.mp3"] "f.mp3" (by decide)

end SpotifyConverter
